import Mathlib

/-
  Verification of the polling metric source core of
  turing-smart-screen-python (custom sensors).

  Source files embedded here:
  - library/sensors/sensors_custom.py          (combined file: Plex base +
    sensors with history, Proxmox base + sensors with history)
  - library/sensors/sensors_custom_proxmox.py  (standalone Proxmox variant,
    retain-last-good cache, no shared history buffer)
  - library/sensors/sensors_custom_plex.py     (Plex base without history)

  Modelling conventions:
  - Python floats (metric values, time.time timestamps) are modelled as
    rationals; all arithmetic the sensors perform on them (division by
    3600, floor division, modulo, comparison) is exact at the values the
    claims exercise.
  - A Python function that may raise is modelled with an Option result,
    none meaning the exception propagates to the caller; a raised
    exception never mutates the cache maps because the mutation
    statements come after the raising expression in every embedded
    function.
  - requests.get is modelled by an environment mapping a full URL to
    an optional parsed JSON body: some j is a 200 response whose body
    parses as j, none is any of non-200 status, network failure, timeout,
    or a body that fails to parse. requests raises MissingSchema before
    any network traffic when the URL does not carry an http scheme; this
    is modelled by requestsGet answering none for such URLs without
    consulting the environment.  Transport invocation (whether
    requests.get was called at all) is tracked as an explicit Bool.
-/

namespace SensorsCustom

/-- Parsed JSON values as returned by the .json() method of a response. -/
inductive Json where
  | null
  | num (q : ℚ)
  | str (s : String)
  | arr (elems : List Json)
  | obj (fields : List (String × Json))

/-- First-match association lookup inside a JSON object, the model of a
Python dict lookup (Python dicts cannot hold duplicate keys). -/
def Json.lookup : List (String × Json) → String → Option Json
  | [], _ => none
  | (k, v) :: rest, key => if k = key then some v else Json.lookup rest key

/-- The empty string, named so that no string literal follows a name. -/
def emptyS : String := ""

/-- Python truthiness of a JSON value, used by the idiom (x or default):
None, 0, the empty string, the empty list and the empty dict are falsy. -/
def jsonTruthy (j : Json) : Bool :=
  match j with
  | Json.null => false
  | Json.num q => if q = 0 then false else true
  | Json.str s => if s = emptyS then false else true
  | Json.arr elems => if elems.isEmpty then false else true
  | Json.obj fields => if fields.isEmpty then false else true

/-- Model of the Python idiom (x or default) applied to an optional fetch
result: None and falsy values are replaced by the default. -/
def pyOr (x : Option Json) (d : Json) : Json :=
  match x with
  | none => d
  | some j => if jsonTruthy j then j else d

/-- Model of d.get(key) on a Python value d: some (lookup result, which is
none when the key is absent, standing for Python None) when d is a dict,
and the outer none when d is not a dict and .get raises AttributeError. -/
def dictGet (j : Json) (key : String) : Option (Option Json) :=
  match j with
  | Json.obj fields => some (Json.lookup fields key)
  | _ => none

/-- Model of d.get(key, default) on a Python value d: some value when d is
a dict (absent keys give the default), none when d is not a dict and .get
raises AttributeError. -/
def dictGetD (j : Json) (key : String) (d : Json) : Option Json :=
  match j with
  | Json.obj fields => some ((Json.lookup fields key).getD d)
  | _ => none

/-- Model of the Python float() conversion applied to a JSON value: JSON
numbers convert, everything else is treated as raising (the payload fields
the sensors convert are numbers; float() of a numeric string, which Python
would accept, is not needed by any embedded payload and is folded into the
raising case). -/
def pyFloat (j : Json) : Option ℚ :=
  match j with
  | Json.num q => some q
  | _ => none

/-- Model of the Python int() truncation toward zero on a rational. -/
def pyInt (q : ℚ) : ℤ :=
  if 0 ≤ q then ⌊q⌋ else -⌊-q⌋

/-- Model of the Python floor-division a // b followed by int(), as used
by the uptime formatter: mathematical floor of the quotient. -/
def pyFloorDiv (a b : ℚ) : ℤ :=
  ⌊a / b⌋

/-- Model of the Python modulo a % b on floats: a - b * floor(a / b). -/
def pyMod (a b : ℚ) : ℚ :=
  a - b * ⌊a / b⌋

/-- The network environment: full request URL to optional parsed body.
some j is a 200 response parsing as j; none covers non-200 status,
network errors, timeouts and malformed bodies. -/
structure Env where
  http : String → Option Json

/-- The scheme marker requests checks for before opening a connection. -/
def httpS : String := "http"

/-- Whether one character list leads another, used to test the URL for a
scheme marker. -/
def charsLead : List Char → List Char → Bool
  | [], _ => true
  | _ :: _, [] => false
  | p :: ps, c :: cs => if p = c then charsLead ps cs else false

/-- Whether a URL carries an http scheme; requests raises MissingSchema
(before any network traffic) when it does not. -/
def schemeOk (url : String) : Bool :=
  charsLead httpS.data url.data

/-- Model of a single requests.get call including MissingSchema: a URL
without scheme raises inside requests and the surrounding except clause
turns that into the failure result without consulting the network. -/
def requestsGet (env : Env) (url : String) : Option Json :=
  if schemeOk url then env.http url else none

/-- Strip trailing slash characters, the model of str.rstrip applied with
a slash argument. -/
def rstripSlash (s : String) : String :=
  String.mk ((s.data.reverse.dropWhile (fun c => c = '/')).reverse)

/-- Plex backend configuration as held on PlexBaseSensor after init:
url is already rstripped, ttl is the int cache_ttl. -/
structure PlexConfig where
  url : String
  ttl : Int

/-- Proxmox backend configuration as held on ProxmoxBaseSensor after
init (identical fields in both source files). -/
structure PmxConfig where
  host : String
  node : String
  ttl : Int

/-- The api2/json path suffix appended to the Proxmox host. -/
def apiSuffix : String := "/api2/json"

/-- Model of the api_base computation in ProxmoxBaseSensor init:
host.rstrip of slash plus the api suffix when host is nonempty, the
empty string otherwise. -/
def pmxApiBase (host : String) : String :=
  if host = emptyS then emptyS else rstripSlash host ++ apiSuffix

/-- Model of PlexBaseSensor._plex_get: an empty url short-circuits to
None without calling requests.get; otherwise one requests.get against
url ++ ep, with any non-200, exception or parse failure giving None.
The Bool records whether requests.get was invoked. -/
def plexGet (cfg : PlexConfig) (env : Env) (ep : String) : Option Json × Bool :=
  if cfg.url = emptyS then (none, false)
  else (requestsGet env (cfg.url ++ ep), true)

/-- The data field name Proxmox responses wrap their payload in. -/
def keyData : String := "data"

/-- Model of ProxmoxBaseSensor._pmx_get (identical in both source files):
requests.get is always invoked (there is no empty-host short circuit);
on a 200 response the data field of the body is extracted with .get,
where a non-dict body makes .get raise and the except clause yields
None. The Bool records that requests.get was invoked. -/
def pmxGet (cfg : PmxConfig) (env : Env) (ep : String) : Option Json × Bool :=
  ((requestsGet env (pmxApiBase cfg.host ++ ep)).bind
     (fun j => (dictGet j keyData).join), true)

/-- The per-sensor cache maps _cache and _last; both source base classes
hold one dict from metric key to value and one dict from metric key to
the time.time() timestamp of the last store. -/
structure CacheState where
  cache : String → Option ℚ
  last : String → Option ℚ

/-- Result of one _cached call: the returned value, the state of the two
maps afterwards, and whether the compute closure fn was invoked. -/
structure CacheResult (α : Type) where
  value : α
  state : CacheState
  invoked : Bool

/-- Writing one entry: _cache[key] = v and _last[key] = now, the paired
assignment both _cached variants perform on a successful store. -/
def writeEntry (s : CacheState) (key : String) (v : ℚ) (now : ℚ) : CacheState :=
  ⟨fun k => if k = key then some v else s.cache k,
   fun k => if k = key then some now else s.last k⟩

/-- Model of _cached in sensors_custom.py (both PlexBaseSensor and the
combined-file ProxmoxBaseSensor, lines 79-86 and 255-262, accept-on-
failure): a fresh entry (key present and now minus the stored timestamp,
defaulting to 0, strictly below ttl) is returned without invoking fn;
otherwise fn runs and its value, whatever it is, overwrites the entry
and the timestamp. fn is the value of the compute closure: some v when
it returns v, none when it raises, in which case the exception
propagates before either map is touched. -/
def cachedAccept (s : CacheState) (key : String) (ttl : Int) (now : ℚ)
    (fn : Option ℚ) : Option (CacheResult ℚ) :=
  if (s.cache key).isSome ∧ now - ((s.last key).getD 0) < (ttl : ℚ) then
    some ⟨(s.cache key).getD 0, s, false⟩
  else
    fn.map (fun v => ⟨v, writeEntry s key v now, true⟩)

/-- Model of _cached in sensors_custom_proxmox.py (lines 78-89,
retain-last-good): the freshness check is the same; on a miss fn runs,
and when it returns None the maps are left untouched and the previously
cached value (None when absent) is returned. fn is doubly optional: the
outer none means the compute closure raised (propagating before any
store), some none means it returned None, some (some v) means it
returned v. -/
def cachedRetain (s : CacheState) (key : String) (ttl : Int) (now : ℚ)
    (fn : Option (Option ℚ)) : Option (CacheResult (Option ℚ)) :=
  if (s.cache key).isSome ∧ now - ((s.last key).getD 0) < (ttl : ℚ) then
    some ⟨s.cache key, s, false⟩
  else
    fn.map (fun v =>
      match v with
      | none => ⟨s.cache key, s, true⟩
      | some v => ⟨some v, writeEntry s key v now, true⟩)

/-- Model of _push in sensors_custom.py: append to _hist, then pop the
head when the length exceeds 200. -/
def pushHist (hist : List ℚ) (v : ℚ) : List ℚ :=
  let h := hist ++ [v]
  if h.length > 200 then h.drop 1 else h

/-- Model of last_values in sensors_custom.py: the slice keeping the
last 40 elements (all of them when fewer), read-only. -/
def lastValuesHist (hist : List ℚ) : List ℚ :=
  hist.drop (hist.length - 40)

/-- The Plex sessions endpoint used by PlexStreamsSensor. -/
def epSessions : String := "/status/sessions"

/-- The MediaContainer field name of Plex payloads. -/
def keyMediaContainer : String := "MediaContainer"

/-- The size field name of Plex payloads. -/
def keySize : String := "size"

/-- The cache key of PlexStreamsSensor. -/
def keyStreams : String := "streams"

/-- The word appended by the PlexStreamsSensor string formatter. -/
def streamsWord : String := " streams"

/-- Model of the compute closure fn inside PlexStreamsSensor.as_numeric
in sensors_custom.py: one GET of the sessions endpoint, the body (or the
empty dict on failure or falsy body) drilled into MediaContainer, then
float of the size field with default 0; none means the chain raised.
The Bool is whether the GET invoked the transport. -/
def plexStreamsFnT (cfg : PlexConfig) (env : Env) : Option ℚ × Bool :=
  let g := plexGet cfg env epSessions
  let j := pyOr g.1 (Json.obj [])
  (match dictGetD j keyMediaContainer (Json.obj []) with
   | none => none
   | some mc =>
     match dictGetD mc keySize (Json.num 0) with
     | none => none
     | some sz => pyFloat sz, g.2)

/-- Model of PlexStreamsSensor.as_numeric in sensors_custom.py: the
cache-guarded compute followed by one _push of the returned value; the
result carries the value, the cache state, the history and whether the
transport was invoked during this call; none means an exception
propagated out of the call. -/
def plexStreamsNumeric (cfg : PlexConfig) (env : Env) (now : ℚ)
    (s : CacheState) (hist : List ℚ) :
    Option (ℚ × CacheState × List ℚ × Bool) :=
  match cachedAccept s keyStreams cfg.ttl now (plexStreamsFnT cfg env).1 with
  | none => none
  | some r =>
    some (r.value, r.state, pushHist hist r.value,
          r.invoked && (plexStreamsFnT cfg env).2)

/-- Model of PlexStreamsSensor.as_string in sensors_custom.py: int() of
the cached streams value (default 0) followed by the streams word; it
reads only the cache and never fetches. -/
def plexStreamsString (s : CacheState) : String :=
  toString (pyInt ((s.cache keyStreams).getD 0)) ++ streamsWord

/-- A sequence of PlexStreamsSensor.as_numeric calls at the given times,
threading cache and history; none as soon as one call raises. -/
def plexStreamsCalls (cfg : PlexConfig) (env : Env) (ts : List ℚ)
    (s : CacheState) (hist : List ℚ) : Option (CacheState × List ℚ) :=
  match ts with
  | [] => some (s, hist)
  | t :: rest =>
    match plexStreamsNumeric cfg env t s hist with
    | none => none
    | some (_, s2, h2, _) => plexStreamsCalls cfg env rest s2 h2

/-- The nodes path segment of Proxmox endpoints. -/
def nodesSeg : String := "/nodes/"

/-- The status path segment of Proxmox endpoints. -/
def statusSeg : String := "/status"

/-- The per-node status endpoint used by the Proxmox node sensors. -/
def nodeStatusEp (node : String) : String :=
  nodesSeg ++ node ++ statusSeg

/-- The cpu field name of the Proxmox node status payload. -/
def keyCpu : String := "cpu"

/-- The uptime field name of the Proxmox node status payload. -/
def keyUptime : String := "uptime"

/-- The cache key stem of ProxmoxNodeCPUUsageSensor. -/
def keyNodeCpuStem : String := "nodecpu_"

/-- The cache key of ProxmoxNodeCPUUsageSensor for a node. -/
def keyNodeCpu (node : String) : String :=
  keyNodeCpuStem ++ node

/-- The cache key stem of ProxmoxNodeUptimeSensor. -/
def keyNodeUptStem : String := "nodeupt_"

/-- The cache key of ProxmoxNodeUptimeSensor for a node. -/
def keyNodeUpt (node : String) : String :=
  keyNodeUptStem ++ node

/-- Model of ProxmoxNodeCPUUsageSensor._calc (identical in both source
files): fetch node status, take the cpu field with .get (None when
absent, raising when the payload is not a dict), then float times 100
under try, with 0.0 on any conversion failure; none means d.get raised
on a non-dict payload and the exception propagated. -/
def pmxCpuCalc (cfg : PmxConfig) (env : Env) : Option ℚ :=
  let d := pyOr (pmxGet cfg env (nodeStatusEp cfg.node)).1 (Json.obj [])
  match dictGet d keyCpu with
  | none => none
  | some cpu =>
    some (match cpu with
          | none => 0
          | some j =>
            match pyFloat j with
            | none => 0
            | some q => q * 100)

/-- Model of ProxmoxNodeCPUUsageSensor.as_numeric in sensors_custom.py
(the combined file, which pushes to the history on every call): the
cache-guarded _calc followed by one _push; the Bool is whether the
transport was invoked during this call. -/
def pmxCpuNumeric (cfg : PmxConfig) (env : Env) (now : ℚ)
    (s : CacheState) (hist : List ℚ) :
    Option (ℚ × CacheState × List ℚ × Bool) :=
  match cachedAccept s (keyNodeCpu cfg.node) cfg.ttl now (pmxCpuCalc cfg env) with
  | none => none
  | some r =>
    some (r.value, r.state, pushHist hist r.value,
          r.invoked && (pmxGet cfg env (nodeStatusEp cfg.node)).2)

/-- Model of ProxmoxNodeUptimeSensor._calc (identical in both source
files): fetch node status, float of the uptime field with default 0;
none means the conversion raised. -/
def pmxUptimeCalc (cfg : PmxConfig) (env : Env) : Option ℚ :=
  let d := pyOr (pmxGet cfg env (nodeStatusEp cfg.node)).1 (Json.obj [])
  match dictGetD d keyUptime (Json.num 0) with
  | none => none
  | some j => pyFloat j

/-- Model of ProxmoxNodeUptimeSensor.as_numeric in
sensors_custom_proxmox.py (retain-last-good cache, no history): the
cached seconds divided by 3600; the inner none branch is the TypeError
Python would raise dividing None by 3600 after a cold-start failure. -/
def pmxUptimeNumericR (cfg : PmxConfig) (env : Env) (now : ℚ)
    (s : CacheState) : Option (ℚ × CacheState) :=
  match cachedRetain s (keyNodeUpt cfg.node) cfg.ttl now
      ((pmxUptimeCalc cfg env).map some) with
  | none => none
  | some r =>
    match r.value with
    | none => none
    | some sec => some (sec / 3600, r.state)

/-- The day unit written by the uptime formatter. -/
def dayUnit : String := "d "

/-- The hour unit written by the uptime formatter. -/
def hourUnit : String := "h "

/-- The minute unit written by the uptime formatter. -/
def minUnit : String := "m"

/-- Model of the duration breakdown inside ProxmoxNodeUptimeSensor
.as_string (identical in both source files): days, hours and minutes by
floor division and modulo of the seconds value. -/
def pmxUptimeFmt (sec : ℚ) : String :=
  toString (pyFloorDiv sec 86400) ++ dayUnit
    ++ toString (pyFloorDiv (pyMod sec 86400) 3600) ++ hourUnit
    ++ toString (pyFloorDiv (pyMod sec 3600) 60) ++ minUnit

/-- Model of ProxmoxNodeUptimeSensor.as_string (identical in both source
files): format the cached seconds (default 0); it reads only the cache
and never fetches. -/
def pmxUptimeString (node : String) (s : CacheState) : String :=
  pmxUptimeFmt ((s.cache (keyNodeUpt node)).getD 0)

/-- Model of ProxmoxNodeUptimeSensor.as_numeric in sensors_custom.py
(the combined file: accept-on-failure cache, pushes the hours value to
the history on every call). -/
def pmxUptimeNumericC (cfg : PmxConfig) (env : Env) (now : ℚ)
    (s : CacheState) (hist : List ℚ) :
    Option (ℚ × CacheState × List ℚ) :=
  match cachedAccept s (keyNodeUpt cfg.node) cfg.ttl now (pmxUptimeCalc cfg env) with
  | none => none
  | some r => some (r.value / 3600, r.state, pushHist hist (r.value / 3600))

/-- A fresh entry makes the accept-variant _cached return the cached
value without running fn and without touching the maps. -/
theorem cachedAccept_hit (s : CacheState) (key : String) (ttl : Int) (now : ℚ)
    (fn : Option ℚ) (hk : (s.cache key).isSome)
    (hf : now - ((s.last key).getD 0) < (ttl : ℚ)) :
    cachedAccept s key ttl now fn = some ⟨(s.cache key).getD 0, s, false⟩ := by
  unfold cachedAccept
  rw [if_pos ⟨hk, hf⟩]

/-- A missing or stale entry makes the accept-variant _cached run fn and
store its value together with the call time. -/
theorem cachedAccept_miss (s : CacheState) (key : String) (ttl : Int) (now : ℚ)
    (fn : Option ℚ)
    (hm : ¬ ((s.cache key).isSome ∧ now - ((s.last key).getD 0) < (ttl : ℚ))) :
    cachedAccept s key ttl now fn
      = fn.map (fun v => ⟨v, writeEntry s key v now, true⟩) := by
  unfold cachedAccept
  rw [if_neg hm]

/-- A fresh entry makes the retain-variant _cached return the cached
value without running fn and without touching the maps. -/
theorem cachedRetain_hit (s : CacheState) (key : String) (ttl : Int) (now : ℚ)
    (fn : Option (Option ℚ)) (hk : (s.cache key).isSome)
    (hf : now - ((s.last key).getD 0) < (ttl : ℚ)) :
    cachedRetain s key ttl now fn = some ⟨s.cache key, s, false⟩ := by
  unfold cachedRetain
  rw [if_pos ⟨hk, hf⟩]

/-- A missing or stale entry makes the retain-variant _cached run fn;
a None result leaves the maps untouched, any other result is stored
together with the call time. -/
theorem cachedRetain_miss (s : CacheState) (key : String) (ttl : Int) (now : ℚ)
    (fn : Option (Option ℚ))
    (hm : ¬ ((s.cache key).isSome ∧ now - ((s.last key).getD 0) < (ttl : ℚ))) :
    cachedRetain s key ttl now fn
      = fn.map (fun v =>
          match v with
          | none => ⟨s.cache key, s, true⟩
          | some v => ⟨some v, writeEntry s key v now, true⟩) := by
  unfold cachedRetain
  rw [if_neg hm]

/-- The written entry holds the written value. -/
theorem writeEntry_cache_self (s : CacheState) (key : String) (v now : ℚ) :
    (writeEntry s key v now).cache key = some v := by
  simp [writeEntry]

/-- The written entry holds the write time. -/
theorem writeEntry_last_self (s : CacheState) (key : String) (v now : ℚ) :
    (writeEntry s key v now).last key = some now := by
  simp [writeEntry]

/-- After any completed accept-variant call the key is present. -/
theorem cachedAccept_isSome_after (s : CacheState) (key : String) (ttl : Int)
    (now : ℚ) (fn : Option ℚ) (r : CacheResult ℚ)
    (h : cachedAccept s key ttl now fn = some r) :
    (r.state.cache key).isSome := by
  unfold cachedAccept at h
  split at h
  · rename_i hfresh
    cases h
    exact hfresh.1
  · cases fn with
    | none => simp at h
    | some v =>
      simp only [Option.map_some'] at h
      cases h
      simp [writeEntry_cache_self]

/-- After any completed accept-variant call the entry under the key is
exactly the returned value. -/
theorem cachedAccept_cache_value (s : CacheState) (key : String) (ttl : Int)
    (now : ℚ) (fn : Option ℚ) (r : CacheResult ℚ)
    (h : cachedAccept s key ttl now fn = some r) :
    r.state.cache key = some r.value := by
  unfold cachedAccept at h
  split at h
  · rename_i hfresh
    cases h
    cases hc : s.cache key with
    | none => rw [hc] at hfresh; cases hfresh.1
    | some v => simp [hc]
  · cases fn with
    | none => simp at h
    | some v =>
      simp only [Option.map_some'] at h
      cases h
      simp [writeEntry_cache_self]

/-- After any completed retain-variant call the entry under the key is
exactly the returned optional value. -/
theorem cachedRetain_cache_value (s : CacheState) (key : String) (ttl : Int)
    (now : ℚ) (fn : Option (Option ℚ)) (r : CacheResult (Option ℚ))
    (h : cachedRetain s key ttl now fn = some r) :
    r.state.cache key = r.value := by
  unfold cachedRetain at h
  split at h
  · cases h
    rfl
  · cases fn with
    | none => simp at h
    | some v =>
      simp only [Option.map_some'] at h
      cases h
      cases v with
      | none => rfl
      | some w => simp [writeEntry_cache_self]

/-- One push keeps exactly the last 200 elements of the extended
history, provided the history was within bound. -/
theorem pushHist_eq_drop (hist : List ℚ) (v : ℚ) (h : hist.length ≤ 200) :
    pushHist hist v = (hist ++ [v]).drop ((hist ++ [v]).length - 200) := by
  unfold pushHist
  by_cases hl : (hist ++ [v]).length > 200
  · have h1 : (hist ++ [v]).length - 200 = 1 := by
      simp only [List.length_append, List.length_singleton] at hl ⊢
      omega
    rw [if_pos hl, h1]
  · have h0 : (hist ++ [v]).length - 200 = 0 := by omega
    rw [if_neg hl, h0, List.drop_zero]

/-- One push never leaves the history above the bound. -/
theorem pushHist_length_le (hist : List ℚ) (v : ℚ) (h : hist.length ≤ 200) :
    (pushHist hist v).length ≤ 200 := by
  rw [pushHist_eq_drop hist v h]
  simp only [List.length_drop]
  omega

/-- Keeping the last n of a list whose front beyond the last n was
already dropped, then extending, is the same as keeping the last n of
the extension of the original list. -/
theorem drop_last_absorb (a b : List ℚ) (n : Nat):
    (a.drop (a.length - n) ++ b).drop ((a.drop (a.length - n) ++ b).length - n)
      = (a ++ b).drop ((a ++ b).length - n) := by
  by_cases ha : a.length ≤ n
  · have : a.length - n = 0 := by omega
    simp [this]
  · have hk : a.length - n ≤ a.length := by omega
    rw [← List.drop_append_of_le_length hk]
    rw [List.drop_drop]
    congr 1
    simp only [List.length_drop, List.length_append]
    omega

/-- Folding pushes over any input sequence keeps exactly the last 200
elements of the accumulated stream. -/
theorem foldl_pushHist_eq (xs : List ℚ) (acc : List ℚ) (h : acc.length ≤ 200) :
    List.foldl pushHist acc xs = (acc ++ xs).drop ((acc ++ xs).length - 200) := by
  induction xs generalizing acc with
  | nil =>
    have : acc.length - 200 = 0 := by omega
    simp [this]
  | cons x rest ih =>
    rw [List.foldl_cons]
    rw [ih (pushHist acc x) (pushHist_length_le acc x h)]
    rw [pushHist_eq_drop acc x h]
    rw [drop_last_absorb (a := acc ++ [x]) (b := rest) (n := 200)]
    simp

/-- C5: the History Buffer of sensors_custom.py, starting empty, holds
exactly the last 200 pushed values after any sequence of pushes (strict
FIFO eviction of the oldest element on overflow), hence never exceeds
200 elements; and after any 250 pushes the last_values view returns
exactly the last 40 pushed values in push order. The view is a pure
function of the history, so reading it never changes the buffer. -/
theorem history_bounded_and_recent (xs : List ℚ) :
    List.foldl pushHist [] xs = xs.drop (xs.length - 200)
    ∧ (List.foldl pushHist [] xs).length ≤ 200
    ∧ (xs.length = 250 → lastValuesHist (List.foldl pushHist [] xs) = xs.drop 210) := by
  have hbase := foldl_pushHist_eq xs [] (by simp)
  simp only [List.nil_append] at hbase
  refine ⟨hbase, ?_, ?_⟩
  · rw [hbase]
    simp only [List.length_drop]
    omega
  · intro h250
    have hA : xs.length - 200 = 50 := by omega
    rw [hbase, hA]
    unfold lastValuesHist
    rw [List.drop_drop]
    have hB : 50 + ((xs.drop 50).length - 40) = 210 := by
      simp only [List.length_drop]
      omega
    rw [hB]

/-- A concrete 250-element push sequence for the bound and the recent
view of the History Buffer. -/
def wXs : List ℚ := List.replicate 250 37

/-- The concrete push sequence has 250 elements. -/
theorem wXs_length : wXs.length = 250 := by
  unfold wXs
  rw [List.length_replicate]

/-- Witness instantiating C5 on a concrete 250-push sequence. -/
theorem history_bounded_and_recent_witness :
    (List.foldl pushHist [] wXs).length ≤ 200
    ∧ lastValuesHist (List.foldl pushHist [] wXs) = wXs.drop 210 :=
  ⟨(history_bounded_and_recent wXs).2.1,
   (history_bounded_and_recent wXs).2.2 wXs_length⟩

/-- C1: in both _cached variants, when the second of two calls with the
same key happens while strictly less than ttl seconds have elapsed since
the observed_at of the entry present after the first call, the second
call does not invoke the compute closure and returns the cached value
with the maps unchanged; hence the two calls together invoke the compute
closure at most once. -/
theorem cached_twice_within_ttl
    (s t : CacheState) (key : String) (ttl : Int) (t1 t2 : ℚ)
    (f1 f2 : ℚ) (g1 g2 : Option ℚ)
    (r1 r2 : CacheResult ℚ) (q1 q2 : CacheResult (Option ℚ))
    (h1 : cachedAccept s key ttl t1 (some f1) = some r1)
    (h2 : cachedAccept r1.state key ttl t2 (some f2) = some r2)
    (haf : t2 - ((r1.state.last key).getD 0) < (ttl : ℚ))
    (_h3 : cachedRetain t key ttl t1 (some g1) = some q1)
    (h4 : cachedRetain q1.state key ttl t2 (some g2) = some q2)
    (hrk : (q1.state.cache key).isSome)
    (hrf : t2 - ((q1.state.last key).getD 0) < (ttl : ℚ)) :
    r2.invoked = false ∧ r2.value = (r1.state.cache key).getD 0
      ∧ r2.state = r1.state ∧ (r1.invoked && r2.invoked) = false
      ∧ q2.invoked = false ∧ q2.value = q1.state.cache key
      ∧ q2.state = q1.state ∧ (q1.invoked && q2.invoked) = false := by
  have hk1 := cachedAccept_isSome_after _ _ _ _ _ _ h1
  rw [cachedAccept_hit _ _ _ _ _ hk1 haf] at h2
  rw [cachedRetain_hit _ _ _ _ _ hrk hrf] at h4
  injection h2 with h2
  injection h4 with h4
  subst h2
  subst h4
  exact ⟨rfl, rfl, rfl, by simp, rfl, rfl, rfl, by simp⟩

/-- The always-failing network environment used by the witnesses. -/
def wEnv : Env := ⟨fun _ => none⟩

/-- The empty cache state every sensor starts from. -/
def wCold : CacheState := ⟨fun _ => none, fun _ => none⟩

/-- The concrete node name used by the witnesses. -/
def pveS : String := "pve"

/-- A Plex configuration with empty base URL and the default ttl. -/
def wPlexCfg : PlexConfig := ⟨emptyS, 30⟩

/-- A Proxmox configuration with empty host and the default ttl. -/
def wPmxCfg : PmxConfig := ⟨emptyS, pveS, 30⟩

/-- The cache state after storing 7 under the streams key at time 0. -/
def wS7 : CacheState := writeEntry wCold keyStreams 7 0

/-- The cache state after storing 5 under the streams key at time 0. -/
def wT5 : CacheState := writeEntry wCold keyStreams 5 0

/-- Witness instantiating C1: a first call from a cold cache at time 0
stores the computed value, and a second call at time 0 (within the ttl
of 30) is answered from the cache without invoking the compute closure
in either variant. -/
theorem cached_twice_within_ttl_witness :
    (⟨(wS7.cache keyStreams).getD 0, wS7, false⟩ : CacheResult ℚ).invoked = false
    ∧ (⟨wT5.cache keyStreams, wT5, false⟩ : CacheResult (Option ℚ)).invoked = false :=
  have h := cached_twice_within_ttl wCold wCold keyStreams 30 0 0 7 9 (some 5) (some 9)
    ⟨7, wS7, true⟩ ⟨(wS7.cache keyStreams).getD 0, wS7, false⟩
    ⟨some 5, wT5, true⟩ ⟨wT5.cache keyStreams, wT5, false⟩
    rfl
    (cachedAccept_hit wS7 keyStreams 30 0 (some 9)
      (by simp [wS7, writeEntry_cache_self])
      (by simp [wS7, writeEntry_last_self]))
    (by simp [wS7, writeEntry_last_self])
    rfl
    (cachedRetain_hit wT5 keyStreams 30 0 (some (some 9))
      (by simp [wT5, writeEntry_cache_self])
      (by simp [wT5, writeEntry_last_self]))
    (by simp [wT5, writeEntry_cache_self])
    (by simp [wT5, writeEntry_last_self])
  ⟨h.1, h.2.2.2.2.1⟩

/-- C3: in the retain-last-good _cached of sensors_custom_proxmox.py,
when the key already has an entry and the entry is stale enough for the
compute closure to run, a compute that returns None leaves the whole
state - both the cached value and the observed_at timestamp - unchanged
and the call returns the previously cached value. -/
theorem retain_failure_keeps_entry (s : CacheState) (key : String)
    (ttl : Int) (now : ℚ)
    (hk : (s.cache key).isSome)
    (hstale : ¬ (now - ((s.last key).getD 0) < (ttl : ℚ))) :
    cachedRetain s key ttl now (some none) = some ⟨s.cache key, s, true⟩
    ∧ ∃ v, s.cache key = some v := by
  refine ⟨?_, ?_⟩
  · rw [cachedRetain_miss s key ttl now (some none)
      (fun hc => hstale hc.2)]
    rfl
  · cases hc : s.cache key with
    | none => rw [hc] at hk; cases hk
    | some v => exact ⟨v, rfl⟩

/-- The cache state holding 5 under the streams key observed at time 5,
used by the stale-entry witnesses together with a ttl of 0. -/
def wStale5 : CacheState := writeEntry wCold keyStreams 5 5

/-- Witness instantiating C3: with a ttl of 0 an entry observed at the
current time 5 is already stale, and a failing compute leaves it be. -/
theorem retain_failure_keeps_entry_witness :
    cachedRetain wStale5 keyStreams 0 5 (some none)
        = some ⟨wStale5.cache keyStreams, wStale5, true⟩
    ∧ ∃ v, wStale5.cache keyStreams = some v :=
  retain_failure_keeps_entry wStale5 keyStreams 0 5
    (by simp [wStale5, writeEntry_cache_self])
    (by simp [wStale5, writeEntry_last_self])

/-- C4: in the accept-on-failure _cached of sensors_custom.py (both the
Plex and the combined-file Proxmox base class), whenever the compute
closure runs (missing or stale entry) its value - including the 0.0
sentinel a failed fetch produces - overwrites the cached value and
resets observed_at to the current call time, whatever was stored
before. -/
theorem accept_failure_overwrites (s : CacheState) (key : String)
    (ttl : Int) (now : ℚ) (f : ℚ)
    (hmiss : ¬ ((s.cache key).isSome ∧ now - ((s.last key).getD 0) < (ttl : ℚ))) :
    cachedAccept s key ttl now (some f)
        = some ⟨f, writeEntry s key f now, true⟩
    ∧ (writeEntry s key f now).cache key = some f
    ∧ (writeEntry s key f now).last key = some now := by
  refine ⟨?_, writeEntry_cache_self s key f now, writeEntry_last_self s key f now⟩
  rw [cachedAccept_miss s key ttl now (some f) hmiss]
  rfl

/-- Witness instantiating C4: a stale entry (ttl 0) holding 5 is
overwritten by the failure sentinel 0.0 with a fresh timestamp. -/
theorem accept_failure_overwrites_witness :
    cachedAccept wStale5 keyStreams 0 6 (some 0)
        = some ⟨0, writeEntry wStale5 keyStreams 0 6, true⟩
    ∧ (writeEntry wStale5 keyStreams 0 6).cache keyStreams = some 0
    ∧ (writeEntry wStale5 keyStreams 0 6).last keyStreams = some 6 :=
  accept_failure_overwrites wStale5 keyStreams 0 6 0
    (fun hc => by
      have := hc.2
      simp [wStale5, writeEntry_last_self] at this
      exact absurd this (by norm_num))

/-- C9: in both _cached variants, every call either leaves the whole
state untouched or writes the value and the observed_at timestamp of
the key together in one paired update; no call changes one of the two
maps without the other. -/
theorem cache_and_timestamp_together (s t : CacheState) (key : String)
    (ttl : Int) (now : ℚ) (f : Option ℚ) (g : Option (Option ℚ)) :
    (∀ r : CacheResult ℚ, cachedAccept s key ttl now f = some r →
        r.state = s ∨ ∃ v, r.state = writeEntry s key v now)
    ∧ (∀ r : CacheResult (Option ℚ), cachedRetain t key ttl now g = some r →
        r.state = t ∨ ∃ v, r.state = writeEntry t key v now) := by
  constructor
  · intro r h
    unfold cachedAccept at h
    split at h
    · cases h
      exact Or.inl rfl
    · cases f with
      | none => simp at h
      | some v =>
        simp only [Option.map_some'] at h
        cases h
        exact Or.inr ⟨v, rfl⟩
  · intro r h
    unfold cachedRetain at h
    split at h
    · cases h
      exact Or.inl rfl
    · cases g with
      | none => simp at h
      | some v =>
        simp only [Option.map_some'] at h
        cases h
        cases v with
        | none => exact Or.inl rfl
        | some w => exact Or.inr ⟨w, rfl⟩

/-- Witness instantiating C9 on concrete calls of both variants. -/
theorem cache_and_timestamp_together_witness :
    (writeEntry wCold keyStreams 7 0 = wCold
      ∨ ∃ v, writeEntry wCold keyStreams 7 0 = writeEntry wCold keyStreams v 0)
    ∧ (writeEntry wCold keyStreams 5 0 = wCold
      ∨ ∃ v, writeEntry wCold keyStreams 5 0 = writeEntry wCold keyStreams v 0) :=
  ⟨(cache_and_timestamp_together wCold wCold keyStreams 30 0 (some 7) (some (some 5))).1
      ⟨7, wS7, true⟩ rfl,
   (cache_and_timestamp_together wCold wCold keyStreams 30 0 (some 7) (some (some 5))).2
      ⟨some 5, wT5, true⟩ rfl⟩

/-- C6 counterexample: in the retain-last-good _cached of
sensors_custom_proxmox.py, an entry holding 5 observed at time 0 with
ttl 30 is stale at time 31 (the ttl has elapsed), the compute closure
is invoked, it fails (returns None), and observed_at stays 0 instead of
being updated to the call time 31 - refuting the part of the claim that
says observed_at is updated regardless of whether the compute succeeds
or fails, in both variants. -/
theorem stale_failure_keeps_timestamp_counterexample :
    ¬ ((31 : ℚ) - ((wT5.last keyStreams).getD 0) < ((30 : ℤ) : ℚ))
    ∧ cachedRetain wT5 keyStreams 30 31 (some none)
        = some ⟨wT5.cache keyStreams, wT5, true⟩
    ∧ wT5.last keyStreams = some 0
    ∧ ¬ ((0 : ℚ) = 31) := by
  have hstale : ¬ ((31 : ℚ) - ((wT5.last keyStreams).getD 0) < ((30 : ℤ) : ℚ)) := by
    simp only [wT5, writeEntry_last_self, Option.getD_some]
    norm_num
  refine ⟨hstale, ?_, ?_, by norm_num⟩
  · rw [cachedRetain_miss _ _ _ _ _ (fun hc => hstale hc.2)]
    rfl
  · simp [wT5, writeEntry_last_self]

/-- C6 amended: once ttl seconds or more have elapsed since observed_at
(or no entry exists), the next call invokes the compute closure exactly
once in both _cached variants; the accept-on-failure variant of
sensors_custom.py then always stores the computed value and resets
observed_at to the call time, while the retain-last-good variant of
sensors_custom_proxmox.py resets observed_at only when the compute
returns a value, and on a None result leaves both the value and
observed_at unchanged. -/
theorem stale_call_invokes_once (s t : CacheState) (key : String)
    (ttl : Int) (now : ℚ) (f : ℚ) (g : Option ℚ)
    (hs : ¬ ((s.cache key).isSome ∧ now - ((s.last key).getD 0) < (ttl : ℚ)))
    (ht : ¬ ((t.cache key).isSome ∧ now - ((t.last key).getD 0) < (ttl : ℚ))) :
    cachedAccept s key ttl now (some f) = some ⟨f, writeEntry s key f now, true⟩
    ∧ (writeEntry s key f now).last key = some now
    ∧ (∀ v, g = some v →
        cachedRetain t key ttl now (some g)
            = some ⟨some v, writeEntry t key v now, true⟩
        ∧ (writeEntry t key v now).last key = some now)
    ∧ (g = none →
        cachedRetain t key ttl now (some g) = some ⟨t.cache key, t, true⟩) := by
  refine ⟨?_, writeEntry_last_self s key f now, ?_, ?_⟩
  · rw [cachedAccept_miss s key ttl now (some f) hs]
    rfl
  · intro v hv
    subst hv
    rw [cachedRetain_miss t key ttl now (some (some v)) ht]
    exact ⟨rfl, writeEntry_last_self t key v now⟩
  · intro hg
    subst hg
    rw [cachedRetain_miss t key ttl now (some none) ht]
    rfl

/-- Witness instantiating the amended C6: a stale entry (ttl 0, value 5
observed at 5) is recomputed at time 6 in both variants with a fresh
timestamp on success. -/
theorem stale_call_invokes_once_witness :
    cachedAccept wStale5 keyStreams 0 6 (some 3)
        = some ⟨3, writeEntry wStale5 keyStreams 3 6, true⟩
    ∧ cachedRetain wStale5 keyStreams 0 6 (some (some 4))
        = some ⟨some 4, writeEntry wStale5 keyStreams 4 6, true⟩ :=
  have h := stale_call_invokes_once wStale5 wStale5 keyStreams 0 6 3 (some 4)
    (fun hc => by
      have h2 := hc.2
      simp [wStale5, writeEntry_last_self] at h2
      exact absurd h2 (by norm_num))
    (fun hc => by
      have h2 := hc.2
      simp [wStale5, writeEntry_last_self] at h2
      exact absurd h2 (by norm_num))
  ⟨h.1, (h.2.2.1 4 rfl).1⟩

/-- With an empty host the Proxmox api_base is empty, so the request URL
is the bare endpoint path; requests.get is still invoked, raises
MissingSchema on the scheme-less path, and the except clause yields
None. -/
theorem pmxGet_empty_host (cfg : PmxConfig) (env : Env) (ep : String)
    (hx : cfg.host = emptyS) (hep : schemeOk ep = false) :
    pmxGet cfg env ep = (none, true) := by
  unfold pmxGet pmxApiBase
  rw [hx, if_pos rfl]
  have hcat : emptyS ++ ep = ep := by
    simp [emptyS]
  unfold requestsGet
  rw [hcat, hep]
  simp

/-- C2 counterexample: the Proxmox client with an empty configured host,
asked for the node status endpoint, does return the Unavailable signal
None, but only after invoking the transport (requests.get is called on
the scheme-less URL and raises) - refuting the part of the claim that
says every Transport Client returns Unavailable with no transport
invocation under an empty base URL. -/
theorem empty_host_invokes_transport_counterexample :
    wPmxCfg.host = emptyS
    ∧ (pmxGet wPmxCfg wEnv (nodeStatusEp pveS)).1 = none
    ∧ (pmxGet wPmxCfg wEnv (nodeStatusEp pveS)).2 = true
    ∧ ¬ ((pmxGet wPmxCfg wEnv (nodeStatusEp pveS)).2 = false) := by
  exact ⟨rfl, rfl, rfl, fun h => Bool.noConfusion h⟩

/-- With an empty url the Plex streams compute closure performs no
transport call and falls through the empty defaults to 0.0. -/
theorem plexStreamsFnT_empty (cfg : PlexConfig) (env : Env)
    (hp : cfg.url = emptyS) :
    plexStreamsFnT cfg env = (some 0, false) := by
  unfold plexStreamsFnT plexGet
  rw [hp, if_pos rfl]
  rfl

/-- With an empty host the Proxmox cpu compute closure gets None from
the fetch, falls through the empty defaults, and the float(None)
TypeError is caught, giving the 0.0 sentinel. -/
theorem pmxCpuCalc_empty (cfg : PmxConfig) (env : Env)
    (hx : cfg.host = emptyS)
    (hsc : schemeOk (nodeStatusEp cfg.node) = false) :
    pmxCpuCalc cfg env = some 0 := by
  unfold pmxCpuCalc
  rw [pmxGet_empty_host cfg env _ hx hsc]
  rfl

/-- C2 amended: with an empty base URL the Plex client short-circuits -
_plex_get returns None for every endpoint without invoking the
transport, and a cold-cache as_numeric call returns the
Unavailable-derived default 0.0 with no transport invocation. The
Proxmox clients do not short-circuit: _pmx_get still returns None for
every scheme-less endpoint path, but only because the transport is
invoked on the malformed URL and the raised error is caught; a
cold-cache as_numeric call still returns the default 0.0, with the
transport invoked. -/
theorem empty_base_url_unavailable (cfgp : PlexConfig) (cfgx : PmxConfig)
    (env : Env) (ep : String) (now : ℚ) (hist : List ℚ)
    (hp : cfgp.url = emptyS) (hx : cfgx.host = emptyS)
    (hep : schemeOk ep = false)
    (hsc : schemeOk (nodeStatusEp cfgx.node) = false) :
    plexGet cfgp env ep = (none, false)
    ∧ pmxGet cfgx env ep = (none, true)
    ∧ plexStreamsNumeric cfgp env now wCold hist
        = some (0, writeEntry wCold keyStreams 0 now, pushHist hist 0, false)
    ∧ pmxCpuNumeric cfgx env now wCold hist
        = some (0, writeEntry wCold (keyNodeCpu cfgx.node) 0 now,
                pushHist hist 0, true) := by
  have hmiss : ∀ key : String,
      ¬ ((wCold.cache key).isSome ∧ now - ((wCold.last key).getD 0) < ((cfgx.ttl : ℤ) : ℚ)) := by
    intro key hc
    simp [wCold] at hc
  refine ⟨?_, pmxGet_empty_host cfgx env ep hx hep, ?_, ?_⟩
  · unfold plexGet
    rw [hp, if_pos rfl]
  · unfold plexStreamsNumeric
    rw [plexStreamsFnT_empty cfgp env hp]
    have hm := cachedAccept_miss wCold keyStreams cfgp.ttl now (some 0)
      (by intro hc; simp [wCold] at hc)
    simp [hm]
  · unfold pmxCpuNumeric
    rw [pmxCpuCalc_empty cfgx env hx hsc]
    rw [cachedAccept_miss wCold (keyNodeCpu cfgx.node) cfgx.ttl now (some 0)
      (hmiss (keyNodeCpu cfgx.node))]
    simp [pmxGet_empty_host cfgx env (nodeStatusEp cfgx.node) hx hsc]

/-- Witness instantiating the amended C2 at the empty-URL Plex and
Proxmox configurations, the always-failing environment, the sessions
endpoint and a cold cache at time 0. -/
theorem empty_base_url_unavailable_witness :
    plexGet wPlexCfg wEnv epSessions = (none, false)
    ∧ pmxGet wPmxCfg wEnv epSessions = (none, true)
    ∧ plexStreamsNumeric wPlexCfg wEnv 0 wCold []
        = some (0, writeEntry wCold keyStreams 0 0, pushHist [] 0, false)
    ∧ pmxCpuNumeric wPmxCfg wEnv 0 wCold []
        = some (0, writeEntry wCold (keyNodeCpu wPmxCfg.node) 0 0,
                pushHist [] 0, true) :=
  empty_base_url_unavailable wPlexCfg wPmxCfg wEnv epSessions 0 []
    rfl rfl rfl rfl

/-- A completed Plex streams as_numeric call leaves the returned value
in the streams cache entry and appends exactly it to the history. -/
theorem plexStreamsNumeric_some_spec (cfg : PlexConfig) (env : Env) (now : ℚ)
    (s : CacheState) (hist : List ℚ) (v : ℚ) (s2 : CacheState)
    (h2 : List ℚ) (b : Bool)
    (h : plexStreamsNumeric cfg env now s hist = some (v, s2, h2, b)) :
    s2.cache keyStreams = some v ∧ h2 = pushHist hist v := by
  unfold plexStreamsNumeric at h
  cases hacc : cachedAccept s keyStreams cfg.ttl now (plexStreamsFnT cfg env).1 with
  | none => rw [hacc] at h; cases h
  | some r =>
    rw [hacc] at h
    simp only [Option.some.injEq, Prod.mk.injEq] at h
    obtain ⟨hv, hs2, hh2, _⟩ := h
    subst hv
    subst hs2
    subst hh2
    exact ⟨cachedAccept_cache_value _ _ _ _ _ _ hacc, rfl⟩

/-- A completed retain-variant uptime as_numeric call returns the cached
seconds divided by 3600 and leaves those seconds in the cache entry. -/
theorem pmxUptimeNumericR_some_spec (cfg : PmxConfig) (env : Env) (now : ℚ)
    (s : CacheState) (u : ℚ) (t2 : CacheState)
    (h : pmxUptimeNumericR cfg env now s = some (u, t2)) :
    t2.cache (keyNodeUpt cfg.node) = some (u * 3600) := by
  unfold pmxUptimeNumericR at h
  cases hacc : cachedRetain s (keyNodeUpt cfg.node) cfg.ttl now
      ((pmxUptimeCalc cfg env).map some) with
  | none => rw [hacc] at h; cases h
  | some r =>
    rw [hacc] at h
    have hcv := cachedRetain_cache_value _ _ _ _ _ _ hacc
    obtain ⟨rv, rs, ri⟩ := r
    cases rv with
    | none => cases h
    | some sec =>
      simp only [Option.some.injEq, Prod.mk.injEq] at h
      obtain ⟨hu, ht2⟩ := h
      subst ht2
      rw [show rs.cache (keyNodeUpt cfg.node) = some sec from hcv, ← hu]
      rw [div_mul_cancel₀ sec (by norm_num : (3600 : ℚ) ≠ 0)]

/-- C7: in both cited sensors, as_string called right after as_numeric
formats exactly the value the numeric call just read or wrote: the Plex
streams sensor of sensors_custom.py leaves the returned value in the
streams entry and its as_string formats that entry; the retain-variant
uptime sensor of sensors_custom_proxmox.py leaves the seconds it
returned (divided by 3600) in its entry and its as_string formats those
seconds. as_string is a pure function of the cache state (it takes no
environment), so it can never trigger a fetch. -/
theorem string_matches_numeric (cfgp : PlexConfig) (cfgx : PmxConfig)
    (env : Env) (now : ℚ) (s t : CacheState) (hist : List ℚ) :
    (∀ v s2 h2 b, plexStreamsNumeric cfgp env now s hist = some (v, s2, h2, b) →
        s2.cache keyStreams = some v
        ∧ plexStreamsString s2 = toString (pyInt v) ++ streamsWord)
    ∧ (∀ u t2, pmxUptimeNumericR cfgx env now t = some (u, t2) →
        t2.cache (keyNodeUpt cfgx.node) = some (u * 3600)
        ∧ pmxUptimeString cfgx.node t2 = pmxUptimeFmt (u * 3600)) := by
  constructor
  · intro v s2 h2 b h
    have hc := (plexStreamsNumeric_some_spec cfgp env now s hist v s2 h2 b h).1
    refine ⟨hc, ?_⟩
    unfold plexStreamsString
    rw [hc]
    rfl
  · intro u t2 h
    have hc := pmxUptimeNumericR_some_spec cfgx env now t u t2 h
    refine ⟨hc, ?_⟩
    unfold pmxUptimeString
    rw [hc]
    rfl

/-- The cache state holding 90061 seconds under the pve uptime key,
observed at time 1000. -/
def s90 : CacheState :=
  ⟨fun k => if k = keyNodeUpt pveS then some 90061 else none,
   fun k => if k = keyNodeUpt pveS then some 1000 else none⟩

/-- A fresh uptime entry makes the retain-variant as_numeric return the
cached seconds divided by 3600 without touching the state. -/
theorem pmxUptimeNumericR_hit (cfg : PmxConfig) (env : Env) (now : ℚ)
    (s : CacheState) (sec : ℚ)
    (hc : s.cache (keyNodeUpt cfg.node) = some sec)
    (hf : now - ((s.last (keyNodeUpt cfg.node)).getD 0) < (cfg.ttl : ℚ)) :
    pmxUptimeNumericR cfg env now s = some (sec / 3600, s) := by
  unfold pmxUptimeNumericR
  rw [cachedRetain_hit _ _ _ _ _ (by rw [hc]; rfl) hf, hc]

/-- Witness instantiating C7: the Plex pair after a cold-cache call with
an empty URL, and the uptime pair on a fresh 90061-second entry. -/
theorem string_matches_numeric_witness :
    ((writeEntry wCold keyStreams 0 1000).cache keyStreams = some 0
      ∧ plexStreamsString (writeEntry wCold keyStreams 0 1000)
          = toString (pyInt 0) ++ streamsWord)
    ∧ (s90.cache (keyNodeUpt wPmxCfg.node) = some (90061 / 3600 * 3600)
      ∧ pmxUptimeString wPmxCfg.node s90 = pmxUptimeFmt (90061 / 3600 * 3600)) :=
  have h := string_matches_numeric wPlexCfg wPmxCfg wEnv 1000 wCold s90 []
  ⟨h.1 0 (writeEntry wCold keyStreams 0 1000) (pushHist [] 0) false rfl,
   h.2 (90061 / 3600) s90
    (pmxUptimeNumericR_hit wPmxCfg wEnv 1000 s90 90061
      (by simp [s90, wPmxCfg])
      (by simp [s90, wPmxCfg]))⟩

/-- A fresh uptime entry makes the combined-file as_numeric return the
cached seconds divided by 3600 and push that value, without touching
the cache maps. -/
theorem pmxUptimeNumericC_hit (cfg : PmxConfig) (env : Env) (now : ℚ)
    (s : CacheState) (hist : List ℚ) (sec : ℚ)
    (hc : s.cache (keyNodeUpt cfg.node) = some sec)
    (hf : now - ((s.last (keyNodeUpt cfg.node)).getD 0) < (cfg.ttl : ℚ)) :
    pmxUptimeNumericC cfg env now s hist
      = some (sec / 3600, s, pushHist hist (sec / 3600)) := by
  unfold pmxUptimeNumericC
  rw [cachedAccept_hit _ _ _ _ _ (by rw [hc]; rfl) hf, hc]
  rfl

/-- Days part of the 90061-second breakdown. -/
theorem pyFloorDiv_90061_days : pyFloorDiv 90061 86400 = 1 := by
  unfold pyFloorDiv
  rw [Int.floor_eq_iff]
  norm_num

/-- Hours part of the 90061-second breakdown. -/
theorem pyFloorDiv_90061_hours : pyFloorDiv (pyMod 90061 86400) 3600 = 1 := by
  unfold pyFloorDiv pyMod
  rw [show ⌊(90061 : ℚ) / 86400⌋ = 1 from pyFloorDiv_90061_days]
  rw [Int.floor_eq_iff]
  norm_num

/-- Minutes part of the 90061-second breakdown. -/
theorem pyFloorDiv_90061_minutes : pyFloorDiv (pyMod 90061 3600) 60 = 1 := by
  unfold pyFloorDiv pyMod
  rw [show ⌊(90061 : ℚ) / 3600⌋ = 25 by rw [Int.floor_eq_iff]; norm_num]
  rw [Int.floor_eq_iff]
  norm_num

/-- The uptime formatter renders 90061 seconds as one day, one hour and
one minute. -/
theorem pmxUptimeFmt_90061 : pmxUptimeFmt 90061 = "1d 1h 1m" := by
  unfold pmxUptimeFmt
  rw [pyFloorDiv_90061_days, pyFloorDiv_90061_hours, pyFloorDiv_90061_minutes]
  rfl

/-- C8: with 90061 seconds cached fresh under the uptime key, both
uptime sensors (the retain variant of sensors_custom_proxmox.py and the
combined-file variant of sensors_custom.py) return 90061 / 3600 hours
from as_numeric, and as_string renders the breakdown days =
floor(sec / 86400), hours = floor((sec mod 86400) / 3600), minutes =
floor((sec mod 3600) / 60), giving the string of one day, one hour and
one minute. -/
theorem uptime_90061 (cfgx : PmxConfig) (env : Env) (now : ℚ)
    (s : CacheState) (hist : List ℚ)
    (hc : s.cache (keyNodeUpt cfgx.node) = some 90061)
    (hf : now - ((s.last (keyNodeUpt cfgx.node)).getD 0) < (cfgx.ttl : ℚ)) :
    pmxUptimeNumericR cfgx env now s = some (90061 / 3600, s)
    ∧ pmxUptimeNumericC cfgx env now s hist
        = some (90061 / 3600, s, pushHist hist (90061 / 3600))
    ∧ pmxUptimeString cfgx.node s = pmxUptimeFmt 90061
    ∧ pmxUptimeFmt 90061 = "1d 1h 1m"
    ∧ pyFloorDiv 90061 86400 = 1
    ∧ pyFloorDiv (pyMod 90061 86400) 3600 = 1
    ∧ pyFloorDiv (pyMod 90061 3600) 60 = 1 := by
  refine ⟨pmxUptimeNumericR_hit cfgx env now s 90061 hc hf,
    pmxUptimeNumericC_hit cfgx env now s hist 90061 hc hf, ?_,
    pmxUptimeFmt_90061, pyFloorDiv_90061_days, pyFloorDiv_90061_hours,
    pyFloorDiv_90061_minutes⟩
  unfold pmxUptimeString
  rw [hc]
  rfl

/-- Witness instantiating C8 on the concrete 90061-second entry. -/
theorem uptime_90061_witness :
    pmxUptimeNumericR wPmxCfg wEnv 1000 s90 = some (90061 / 3600, s90)
    ∧ pmxUptimeString wPmxCfg.node s90 = pmxUptimeFmt 90061
    ∧ pmxUptimeFmt 90061 = "1d 1h 1m" :=
  have h := uptime_90061 wPmxCfg wEnv 1000 s90 []
    (by simp [s90, wPmxCfg])
    (by simp [s90, wPmxCfg])
  ⟨h.1, h.2.2.1, h.2.2.2.1⟩

/-- A fresh streams entry makes the Plex as_numeric call return the
cached value, leave the maps unchanged, push exactly that value, and
perform no transport call. -/
theorem plexStreamsNumeric_hit (cfg : PlexConfig) (env : Env) (now : ℚ)
    (s : CacheState) (hist : List ℚ)
    (hk : (s.cache keyStreams).isSome)
    (hf : now - ((s.last keyStreams).getD 0) < (cfg.ttl : ℚ)) :
    plexStreamsNumeric cfg env now s hist
      = some ((s.cache keyStreams).getD 0, s,
              pushHist hist ((s.cache keyStreams).getD 0), false) := by
  unfold plexStreamsNumeric
  rw [cachedAccept_hit _ _ _ _ _ hk hf]
  rfl

/-- A completed combined-file Proxmox cpu as_numeric call appends
exactly the returned value to the history. -/
theorem pmxCpuNumeric_some_spec (cfg : PmxConfig) (env : Env) (now : ℚ)
    (s : CacheState) (hist : List ℚ) (v : ℚ) (s2 : CacheState)
    (h2 : List ℚ) (b : Bool)
    (h : pmxCpuNumeric cfg env now s hist = some (v, s2, h2, b)) :
    h2 = pushHist hist v := by
  unfold pmxCpuNumeric at h
  cases hacc : cachedAccept s (keyNodeCpu cfg.node) cfg.ttl now (pmxCpuCalc cfg env) with
  | none => rw [hacc] at h; cases h
  | some r =>
    rw [hacc] at h
    simp only [Option.some.injEq, Prod.mk.injEq] at h
    obtain ⟨hv, _, hh2, _⟩ := h
    subst hv
    subst hh2
    rfl

/-- The repeated call times used by the C10 witness. -/
def wTs : List ℚ := [0, 0]

/-- C10: in the charting variant (sensors_custom.py), every as_numeric
call appends exactly one sample to the History Buffer, including calls
answered entirely from the cache; consequently any number of calls all
made while the streams entry stays fresh append exactly that many
copies of the cached value, with the cache maps unchanged - the history
grows per call, not per fetch. The same per-call push holds for the
combined-file Proxmox cpu sensor. -/
theorem every_call_pushes (cfg : PlexConfig) (cfgx : PmxConfig) (env : Env)
    (s s3 u : CacheState) (hist hist3 histx : List ℚ) (ts : List ℚ)
    (hk : (s.cache keyStreams).isSome)
    (hf : ∀ t2 ∈ ts, t2 - ((s.last keyStreams).getD 0) < (cfg.ttl : ℚ)) :
    plexStreamsCalls cfg env ts s hist
      = some (s, List.foldl pushHist hist
          (List.replicate ts.length ((s.cache keyStreams).getD 0)))
    ∧ (∀ now v s2 h2 b,
        plexStreamsNumeric cfg env now s3 hist3 = some (v, s2, h2, b) →
        h2 = pushHist hist3 v)
    ∧ (∀ now v s2 h2 b,
        pmxCpuNumeric cfgx env now u histx = some (v, s2, h2, b) →
        h2 = pushHist histx v) := by
  refine ⟨?_, ?_, ?_⟩
  · revert hf
    induction ts generalizing hist with
    | nil =>
      intro hf
      simp [plexStreamsCalls]
    | cons t rest ih =>
      intro hf
      have hft : t - ((s.last keyStreams).getD 0) < (cfg.ttl : ℚ) :=
        hf t (List.mem_cons_self t rest)
      unfold plexStreamsCalls
      rw [plexStreamsNumeric_hit cfg env t s hist hk hft]
      show plexStreamsCalls cfg env rest s (pushHist hist ((s.cache keyStreams).getD 0))
        = some (s, List.foldl pushHist hist
            (List.replicate (t :: rest).length ((s.cache keyStreams).getD 0)))
      rw [ih (pushHist hist ((s.cache keyStreams).getD 0))
        (fun t2 ht2 => hf t2 (List.mem_cons_of_mem t ht2))]
      rw [List.length_cons, List.replicate_succ, List.foldl_cons]
  · intro now v s2 h2 b h
    exact (plexStreamsNumeric_some_spec cfg env now s3 hist3 v s2 h2 b h).2
  · intro now v s2 h2 b h
    exact pmxCpuNumeric_some_spec cfgx env now u histx v s2 h2 b h

/-- Witness instantiating C10: two calls at time 0 on a fresh entry
holding 5 observed at 0 append two copies of 5 to the empty history. -/
theorem every_call_pushes_witness :
    plexStreamsCalls wPlexCfg wEnv wTs wT5 []
      = some (wT5, List.foldl pushHist []
          (List.replicate wTs.length ((wT5.cache keyStreams).getD 0))) :=
  (every_call_pushes wPlexCfg wPmxCfg wEnv wT5 wCold wCold [] [] [] wTs
    (by simp [wT5, writeEntry_cache_self])
    (by
      intro t2 ht2
      simp only [wTs, List.mem_cons, List.not_mem_nil, or_false, or_self] at ht2
      subst ht2
      simp [wT5, writeEntry_last_self, wPlexCfg])).1

end SensorsCustom
